import Mathlib

/-!
Verification development for the check-management repository's core:
the balance-computation engine (`backend/src/controllers/dashboard.controller.js`)
and the recurring-transaction scheduler
(`recurring-transaction.model.js`, `backend/src/jobs/recurring-transactions.job.js`).

The JavaScript code is shallowly embedded:
* JS `Date` objects (as used by the date math: `setDate`, `setMonth`,
  `setFullYear`, `getDay`, `getDate`, month/day overflow normalization)
  are modelled by `JSDate` with the proleptic Gregorian calendar and the
  same 0-based months / 1-based days and overflow semantics.
* SQL aggregation queries become filters and sums over explicit row lists.
* SQL `numeric` amounts and JS numbers are modelled as exact rationals `ℚ`;
  the IEEE-754 double semantics of JS number arithmetic is modelled
  separately by `roundF64` where the distinction matters.
* Async database calls that can throw become `Except String` values.
-/

namespace CheckMgmt

/-! ## Calendar / JS `Date` model -/

/-- Gregorian leap-year rule (as implemented by JS `Date`). -/
def isLeapYear (y : ℕ) : Bool :=
  y % 4 == 0 && (y % 100 != 0 || y % 400 == 0)

/-- Number of days of month `m` (0-based, JS convention) in year `y`. -/
def daysInMonth (y m : ℕ) : ℕ :=
  if m = 1 then (if isLeapYear y then 29 else 28)
  else if m = 3 ∨ m = 5 ∨ m = 8 ∨ m = 10 then 30
  else 31

/-- A JS `Date`, date part only: 0-based `month` (0 = January), 1-based `day`.
The code under verification never uses the time-of-day component. -/
structure JSDate where
  year : ℕ
  month : ℕ
  day : ℕ
  deriving DecidableEq, Repr

/-- JS `Date` day-overflow normalization: while the day-of-month exceeds the
length of the current month, roll into the following month.  Fuel-indexed;
every caller passes enough fuel (each step removes at least 28 days). -/
def normDay : ℕ → JSDate → JSDate
  | 0, dt => dt
  | fuel+1, dt =>
    if dt.day ≤ daysInMonth dt.year dt.month then dt
    else
      normDay fuel (if dt.month = 11
        then ⟨dt.year + 1, 0, dt.day - daysInMonth dt.year dt.month⟩
        else ⟨dt.year, dt.month + 1, dt.day - daysInMonth dt.year dt.month⟩)

/-- JS `d.setDate(x)` (for `x ≥ 1`): set the day-of-month and normalize. -/
def setDate (dt : JSDate) (d : ℕ) : JSDate :=
  normDay (d + 1) ⟨dt.year, dt.month, d⟩

/-- JS `d.setMonth(m)` (for `m ≥ 0`): set the month (overflowing into later
years) keeping the day-of-month, then normalize the day. -/
def setMonth (dt : JSDate) (m : ℕ) : JSDate :=
  normDay (dt.day + 1) ⟨dt.year + m / 12, m % 12, dt.day⟩

/-- JS `d.setFullYear(y)`: set the year keeping month and day, then
normalize the day (Feb 29 of a leap year becomes Mar 1 of a common year). -/
def setFullYear (dt : JSDate) (y : ℕ) : JSDate :=
  normDay (dt.day + 1) ⟨y, dt.month, dt.day⟩

/-- Leap years among `0, 1, …, y-1` (year 0 is a leap year). -/
def leapsBefore (y : ℕ) : ℕ :=
  if y = 0 then 0 else 1 + (y - 1) / 4 - (y - 1) / 100 + (y - 1) / 400

/-- Days before month `m` (0-based) in a common year. -/
def monthOffsetBase (m : ℕ) : ℕ :=
  match m with
  | 0 => 0 | 1 => 31 | 2 => 59 | 3 => 90 | 4 => 120 | 5 => 151
  | 6 => 181 | 7 => 212 | 8 => 243 | 9 => 273 | 10 => 304 | _ => 334

/-- Days before month `m` (0-based) in year `y`. -/
def monthOffset (y m : ℕ) : ℕ :=
  monthOffsetBase m + (if 2 ≤ m ∧ isLeapYear y = true then 1 else 0)

/-- Linear ordinal of a date: days since 0000-01-01 (proleptic Gregorian).
Monotone in the calendar order, so it serves as the comparison key for
SQL `date` comparisons. -/
def toOrdinal (dt : JSDate) : ℕ :=
  365 * dt.year + leapsBefore dt.year + monthOffset dt.year dt.month + (dt.day - 1)

/-- JS `d.getDay()`: day of week, 0 = Sunday … 6 = Saturday.
0000-01-01 of the proleptic Gregorian calendar is a Saturday. -/
def getDay (dt : JSDate) : ℕ := (toOrdinal dt + 6) % 7

/-- A structurally valid calendar date. -/
def ValidDate (dt : JSDate) : Prop :=
  dt.month ≤ 11 ∧ 1 ≤ dt.day ∧ dt.day ≤ daysInMonth dt.year dt.month

instance : DecidablePred ValidDate := fun dt => by
  unfold ValidDate; infer_instance

/-- Models `new Date(y, M, 0).getDate()` (`M ≥ 1`): the last day of the month
preceding month `M` of year `y`, after JS month normalization.  The source
uses it as `new Date(getFullYear(), getMonth() + 1, 0).getDate()` to obtain
the length of the current month. -/
def lastDayArg (y M : ℕ) : ℕ :=
  let y' := y + M / 12
  let m' := M % 12
  if m' = 0 then daysInMonth (y' - 1) 11 else daysInMonth y' (m' - 1)

/-! ## `calculateNextDueDate` (recurring-transaction.model.js, lines 19–60)

Faithful embedding of the JS `switch` on the frequency string.  `dayOfMonth`
and `dayOfWeek` are `Option ℕ` (`none` = JS `null`).  The JS `|| 7` on
`daysUntilNext` maps a zero remainder to 7.  An unknown frequency string only
logs a warning and returns the date unchanged. -/

def calculateNextDueDate (frequency : String) (lastDate : JSDate)
    (dayOfMonth : Option ℕ) (dayOfWeek : Option ℕ) : JSDate :=
  if frequency = "daily" then
    setDate lastDate (lastDate.day + 1)
  else if frequency = "weekly" then
    match dayOfWeek with
    | some dw =>
      let t := (dw + 7 - getDay lastDate) % 7
      let daysUntilNext := if t = 0 then 7 else t
      setDate lastDate (lastDate.day + daysUntilNext)
    | none => setDate lastDate (lastDate.day + 7)
  else if frequency = "monthly" then
    match dayOfMonth with
    | some dom =>
      let d1 := setMonth lastDate (lastDate.month + 1)
      let lastDayOfMonth := lastDayArg d1.year (d1.month + 1)
      setDate d1 (min dom lastDayOfMonth)
    | none => setMonth lastDate (lastDate.month + 1)
  else if frequency = "yearly" then
    match dayOfMonth with
    | some dom =>
      let d1 := setFullYear lastDate (lastDate.year + 1)
      let lastDayOfMonth := lastDayArg d1.year (d1.month + 1)
      setDate d1 (min dom lastDayOfMonth)
    | none => setFullYear lastDate (lastDate.year + 1)
  else lastDate


/-! ## Balance engine (dashboard.controller.js, `calculateBalanceForDate`, lines 20–100)

SQL rows are explicit lists; SQL `date` values for ledger rows are modelled as
`ℕ` day ordinals (only `≤` comparisons against the target date occur).
Amounts (`numeric` columns, JS numbers after `parseFloat`) are exact
rationals; see `roundF64` below for the floating-point refinement. -/

/-- A `bank_accounts` row (the columns `calculateBalanceForDate` selects). -/
structure BankAccount where
  id : ℕ
  user_id : ℕ
  bank_name : String
  account_number : String
  alias_name : String
  low_balance_threshold : Option ℚ
  opening_balance : Option ℚ
  deriving DecidableEq, Repr

/-- A `checks` row (the columns the balance queries touch). -/
structure CheckRow where
  id : ℕ
  bank_account_id : ℕ
  type : String
  amount : ℚ
  date : ℕ
  deriving DecidableEq, Repr

/-- A `cash` row (the columns the balance queries touch). -/
structure CashRow where
  id : ℕ
  user_id : ℕ
  type : String
  amount : ℚ
  date : ℕ
  deriving DecidableEq, Repr

/-- The ledger tables the balance engine reads. -/
structure Database where
  accounts : List BankAccount
  checks : List CheckRow
  cash : List CashRow
  deriving DecidableEq, Repr

/-- Models `SELECT COALESCE(SUM(CASE WHEN type = 'credit' THEN amount ELSE 0 END), 0)
FROM cash WHERE user_id = $1 AND date <= $2`. -/
def cashCreditTotal (db : Database) (userId : ℕ) (date : ℕ) : ℚ :=
  ((db.cash.filter fun r => r.user_id == userId && decide (r.date ≤ date)).map
    fun r => if r.type = "credit" then r.amount else 0).sum

/-- Models `SELECT COALESCE(SUM(CASE WHEN type = 'debit' THEN amount ELSE 0 END), 0)
FROM cash WHERE user_id = $1 AND date <= $2`. -/
def cashDebitTotal (db : Database) (userId : ℕ) (date : ℕ) : ℚ :=
  ((db.cash.filter fun r => r.user_id == userId && decide (r.date ≤ date)).map
    fun r => if r.type = "debit" then r.amount else 0).sum

/-- Models `SELECT COALESCE(SUM(amount), 0) FROM checks
WHERE bank_account_id = $1 AND type = $2 AND date <= $3`. -/
def checksSum (db : Database) (accountId : ℕ) (ty : String) (date : ℕ) : ℚ :=
  ((db.checks.filter fun c =>
      c.bank_account_id == accountId && c.type == ty && decide (c.date ≤ date)).map
    (·.amount)).sum

/-- One element of the `accountBalances` array pushed per account. -/
structure AccountBalance where
  account_id : ℕ
  bank_name : String
  account_number : String
  alias_name : String
  balance : ℚ
  low_balance_threshold : ℚ
  is_low_balance : Bool
  deriving DecidableEq, Repr

/-- The per-account body of the `for (const account of accounts)` loop:
`balance = openingBalance + incomingTotal - outgoingTotal`, and the pushed
record with `is_low_balance: balance < (parseFloat(low_balance_threshold) || 0)`.
Idealization: the source applies `parseFloat` to every SQL aggregate and
combines the totals with binary64 `+`/`-`; here those operations are read as
exact rational arithmetic.  `balanceFloat` below is the faithful binary64
semantics of this balance line, and the two observably differ (see the C2
counterexample and C3), so statements proved over this definition speak of
the exact-decimal reading of the computation, not of the program's bit-exact
values. -/
def accountEntry (db : Database) (date : ℕ) (a : BankAccount) : AccountBalance :=
  let incomingTotal := checksSum db a.id "incoming" date
  let outgoingTotal := checksSum db a.id "outgoing" date
  let openingBalance := a.opening_balance.getD 0
  let balance := openingBalance + incomingTotal - outgoingTotal
  { account_id := a.id
    bank_name := a.bank_name
    account_number := a.account_number
    alias_name := a.alias_name
    balance := balance
    low_balance_threshold := a.low_balance_threshold.getD 0
    is_low_balance := decide (balance < a.low_balance_threshold.getD 0) }

/-- The account loop: threads `overallBalance += balance` left to right and
collects the pushed records in order.  The source's `+=` is a binary64
addition (one rounding per step); it is read here as exact rational
addition — same idealization as `accountEntry`. -/
def balanceLoop (db : Database) (date : ℕ) :
    List BankAccount → ℚ → ℚ × List AccountBalance
  | [], overall => (overall, [])
  | a :: rest, overall =>
    let e := accountEntry db date a
    let r := balanceLoop db date rest (overall + e.balance)
    (r.1, e :: r.2)

/-- The value `calculateBalanceForDate` resolves with. -/
structure BalanceResult where
  date : ℕ
  overall_balance : ℚ
  account_balances : List AccountBalance
  cash_balance : ℚ
  deriving DecidableEq, Repr

/-- The controller's `calculateBalanceForDate(userId, date)`: cash net first
(`overallBalance` starts at `cashNetBalance`), then the account loop.  The
source computes `cashNetBalance` by subtracting two `parseFloat`ed SQL
aggregates in binary64; as in `accountEntry`, that arithmetic is read here
as exact rational arithmetic (`balanceFloat` carries the faithful binary64
semantics). -/
def calculateBalanceForDate (db : Database) (userId : ℕ) (date : ℕ) : BalanceResult :=
  let accounts := db.accounts.filter fun a => a.user_id == userId
  let cashNetBalance := cashCreditTotal db userId date - cashDebitTotal db userId date
  let r := balanceLoop db date accounts cashNetBalance
  { date := date
    overall_balance := r.1
    account_balances := r.2
    cash_balance := cashNetBalance }

/-! ## Recurring-transaction templates (recurring-transaction.model.js)

A `recurring_transactions` row.  `id`/`user_id` (UUIDs) are modelled as `ℕ`;
SQL `DATE` columns as `JSDate` values compared through `toOrdinal`. -/

structure RecurringTemplate where
  id : ℕ
  user_id : ℕ
  transaction_type : String
  bank_account_id : Option ℕ
  check_type : Option String
  cash_type : Option String
  amount : ℚ
  payee_payer_name : Option String
  description : Option String
  frequency : String
  start_date : JSDate
  end_date : Option JSDate
  day_of_month : Option ℕ
  day_of_week : Option ℕ
  is_active : Bool
  last_created_date : Option JSDate
  next_due_date : JSDate
  deriving DecidableEq, Repr

/-- Payload accepted by `createRecurringTransaction`. -/
structure RecurringData where
  transaction_type : String
  bank_account_id : Option ℕ
  check_type : Option String
  cash_type : Option String
  amount : ℚ
  payee_payer_name : Option String
  description : Option String
  frequency : String
  start_date : JSDate
  end_date : Option JSDate
  day_of_month : Option ℕ
  day_of_week : Option ℕ
  deriving DecidableEq, Repr

/-- The model's `createRecurringTransaction` (lines 154–221): computes the initial
`next_due_date = calculateNextDueDate(frequency, start_date, day_of_month,
day_of_week)` and inserts the row; `is_active` takes the schema default
`true` and `last_created_date` is `NULL`. -/
def createRecurringTransaction (newId : ℕ) (userId : ℕ) (d : RecurringData) :
    RecurringTemplate :=
  { id := newId
    user_id := userId
    transaction_type := d.transaction_type
    bank_account_id := d.bank_account_id
    check_type := d.check_type
    cash_type := d.cash_type
    amount := d.amount
    payee_payer_name := d.payee_payer_name
    description := d.description
    frequency := d.frequency
    start_date := d.start_date
    end_date := d.end_date
    day_of_month := d.day_of_month
    day_of_week := d.day_of_week
    is_active := true
    last_created_date := none
    next_due_date :=
      calculateNextDueDate d.frequency d.start_date d.day_of_month d.day_of_week }

/-- Partial update payload for `updateRecurringTransaction`.  `none` models an
absent (JS `undefined`) field.  String fields go through JS `||` truthiness in
the source, so an explicitly empty string behaves like an absent field. -/
structure RecurringUpdate where
  transaction_type : Option String
  bank_account_id : Option ℕ
  check_type : Option String
  cash_type : Option String
  amount : Option ℚ
  payee_payer_name : Option String
  description : Option String
  frequency : Option String
  start_date : Option JSDate
  end_date : Option JSDate
  day_of_month : Option ℕ
  day_of_week : Option ℕ
  is_active : Option Bool
  deriving DecidableEq, Repr

/-- JS truthiness of an optional string (`undefined` and `''` are falsy). -/
def truthy (o : Option String) : Bool :=
  match o with
  | some s => !(s == "")
  | none => false

/-- The model's `updateRecurringTransaction` (lines 230–313), row-level semantics of the
`COALESCE` update.  `next_due_date` is recalculated — anchored at the
(possibly updated) `start_date`, never at `last_created_date` — exactly when
the payload carries `frequency`, `start_date`, `day_of_month` or
`day_of_week`; otherwise the stored value is kept. -/
def updateRecurringTransaction (current : RecurringTemplate) (d : RecurringUpdate) :
    RecurringTemplate :=
  let nextDueDate :=
    if truthy d.frequency || d.start_date.isSome ||
        d.day_of_month.isSome || d.day_of_week.isSome then
      calculateNextDueDate
        (if truthy d.frequency then d.frequency.getD "" else current.frequency)
        (d.start_date.getD current.start_date)
        (if d.day_of_month.isSome then d.day_of_month else current.day_of_month)
        (if d.day_of_week.isSome then d.day_of_week else current.day_of_week)
    else current.next_due_date
  { current with
    transaction_type :=
      if truthy d.transaction_type then d.transaction_type.getD "" else current.transaction_type
    bank_account_id :=
      match d.bank_account_id with | some v => some v | none => current.bank_account_id
    check_type := if truthy d.check_type then d.check_type else current.check_type
    cash_type := if truthy d.cash_type then d.cash_type else current.cash_type
    amount := d.amount.getD current.amount
    payee_payer_name :=
      if truthy d.payee_payer_name then d.payee_payer_name else current.payee_payer_name
    description := if truthy d.description then d.description else current.description
    frequency := if truthy d.frequency then d.frequency.getD "" else current.frequency
    start_date := d.start_date.getD current.start_date
    end_date := match d.end_date with | some v => some v | none => current.end_date
    day_of_month :=
      match d.day_of_month with | some v => some v | none => current.day_of_month
    day_of_week :=
      match d.day_of_week with | some v => some v | none => current.day_of_week
    is_active := d.is_active.getD current.is_active
    next_due_date := nextDueDate }

/-- The SQL `WHERE` clause of `getDueRecurringTransactions` (lines 360–385):
`is_active = true AND next_due_date <= $1 AND (end_date IS NULL OR
end_date >= next_due_date) AND start_date <= next_due_date`. -/
def isDue (upToDate : JSDate) (rt : RecurringTemplate) : Bool :=
  rt.is_active &&
  decide (toOrdinal rt.next_due_date ≤ toOrdinal upToDate) &&
  (match rt.end_date with
   | none => true
   | some ed => decide (toOrdinal ed ≥ toOrdinal rt.next_due_date)) &&
  decide (toOrdinal rt.start_date ≤ toOrdinal rt.next_due_date)

/-- Comparison used by `ORDER BY rt.next_due_date ASC`. -/
def nextDueLE (a b : RecurringTemplate) : Prop :=
  toOrdinal a.next_due_date ≤ toOrdinal b.next_due_date

instance : DecidableRel nextDueLE := fun a b => by unfold nextDueLE; infer_instance

instance : IsTotal RecurringTemplate nextDueLE :=
  ⟨fun a b => Nat.le_total (toOrdinal a.next_due_date) (toOrdinal b.next_due_date)⟩

instance : IsTrans RecurringTemplate nextDueLE :=
  ⟨fun _ _ _ hab hbc => Nat.le_trans hab hbc⟩

/-- The spec's schedule invariant: `next_due_date` is derivable from
`(frequency, anchor_date, day_of_month, day_of_week)` where the anchor is
`last_created_date` if set, else `start_date`. -/
def ScheduleInvariant (t : RecurringTemplate) : Prop :=
  t.next_due_date =
    calculateNextDueDate t.frequency (t.last_created_date.getD t.start_date)
      t.day_of_month t.day_of_week

instance : DecidablePred ScheduleInvariant := fun t => by
  unfold ScheduleInvariant; infer_instance

/-- The model's `getDueRecurringTransactions(upToDate)`: the rows passing the `WHERE`
filter, ordered ascending by `next_due_date`. -/
def getDueRecurringTransactions (store : List RecurringTemplate) (upToDate : JSDate) :
    List RecurringTemplate :=
  List.insertionSort nextDueLE (store.filter (isDue upToDate))

/-- The model's `markRecurringTransactionCreated(recurringId, createdDate)` (lines 394–426):
re-reads `frequency`/`day_of_month`/`day_of_week` for the row, then updates
`last_created_date = createdDate` and
`next_due_date = calculateNextDueDate(frequency, createdDate, day_of_month,
day_of_week)`.  A missing row leaves the store unchanged (the source returns
`null` without throwing). -/
def markRecurringTransactionCreated (store : List RecurringTemplate)
    (recurringId : ℕ) (createdDate : JSDate) : List RecurringTemplate :=
  match store.find? (fun t => t.id == recurringId) with
  | none => store
  | some cur =>
    store.map fun t =>
      if t.id == recurringId then
        { t with
          last_created_date := some createdDate
          next_due_date :=
            calculateNextDueDate cur.frequency createdDate
              cur.day_of_month cur.day_of_week }
      else t

/-! ## Batch job (backend/src/jobs/recurring-transactions.job.js)

`createCheck` / `createCashTransaction` are external collaborators that may
throw (e.g. the referenced account was deleted); they are modelled as
environment-supplied `Except`-valued functions receiving the same payloads the
job builds.  A failure of `getDueRecurringTransactions` itself (a storage
error) is modelled by `listFailure`. -/

/-- The `checkData` object the job builds for a `check` template. -/
structure CheckData where
  bank_account_id : Option ℕ
  type : Option String
  amount : ℚ
  date : JSDate
  payee_payer_name : Option String
  deriving DecidableEq, Repr

/-- The `cashData` object the job builds for a `cash` template. -/
structure CashData where
  type : Option String
  amount : ℚ
  date : JSDate
  description : Option String
  deriving DecidableEq, Repr

/-- An entry of `results.errors`: `{recurring_transaction_id, error}`. -/
structure JobError where
  recurring_transaction_id : ℕ
  error : String
  deriving DecidableEq, Repr

/-- The `results` summary object of the job. -/
structure JobResults where
  processed : ℕ
  failed : ℕ
  errors : List JobError
  deriving DecidableEq, Repr

/-- External collaborators of the job. -/
structure JobEnv where
  createCheck : ℕ → CheckData → Except String ℕ
  createCashTransaction : ℕ → CashData → Except String ℕ
  listFailure : Option String

/-- The transaction-creation part of the loop body: dispatch on
`transaction_type` and call the matching collaborator.  A template of any
other type creates nothing and succeeds vacuously (in the source
`createdTransaction` simply stays `undefined`). -/
def attemptCreate (env : JobEnv) (dateStr : JSDate) (rt : RecurringTemplate) :
    Except String ℕ :=
  if rt.transaction_type = "check" then
    env.createCheck rt.user_id
      { bank_account_id := rt.bank_account_id
        type := rt.check_type
        amount := rt.amount
        date := dateStr
        payee_payer_name := rt.payee_payer_name }
  else if rt.transaction_type = "cash" then
    env.createCashTransaction rt.user_id
      { type := rt.cash_type
        amount := rt.amount
        date := dateStr
        description := rt.description }
  else Except.ok 0

/-- The `for (const recurringTransaction of dueTransactions)` loop: on success
mark the template created (advancing its schedule) and count it processed; on
a thrown error record `{recurring_transaction_id, error}`, count it failed,
and continue with the remaining templates and the unchanged store. -/
def processLoop (env : JobEnv) (dateStr : JSDate) :
    List RecurringTemplate → List RecurringTemplate → JobResults →
    JobResults × List RecurringTemplate
  | [], store, results => (results, store)
  | rt :: rest, store, results =>
    match attemptCreate env dateStr rt with
    | Except.ok _ =>
      processLoop env dateStr rest
        (markRecurringTransactionCreated store rt.id dateStr)
        { results with processed := results.processed + 1 }
    | Except.error e =>
      processLoop env dateStr rest store
        { results with
          failed := results.failed + 1
          errors := results.errors ++ [⟨rt.id, e⟩] }

/-- Whether the creation attempt for a template succeeds. -/
def okCreate (env : JobEnv) (dateStr : JSDate) (rt : RecurringTemplate) : Bool :=
  match attemptCreate env dateStr rt with
  | Except.ok _ => true
  | Except.error _ => false

/-- The thrown error's message for a failing creation attempt. -/
def errOf (env : JobEnv) (dateStr : JSDate) (rt : RecurringTemplate) : String :=
  match attemptCreate env dateStr rt with
  | Except.ok _ => ""
  | Except.error e => e

/-- The job's `processDueRecurringTransactions(processDate)` (lines 18–84): list the due
templates (a storage failure there propagates), then process them one by one;
the function resolves with the `{processed, failed, errors}` summary and the
(possibly advanced) template store. -/
def processDueRecurringTransactions (env : JobEnv) (store : List RecurringTemplate)
    (processDate : JSDate) : Except String (JobResults × List RecurringTemplate) :=
  match env.listFailure with
  | some e => Except.error e
  | none =>
    let dueTransactions := getDueRecurringTransactions store processDate
    Except.ok (processLoop env processDate dueTransactions store ⟨0, 0, []⟩)

/-! ## IEEE-754 double model

The controller converts the SQL aggregates with `parseFloat` and combines
them with JS `+`/`-`, i.e. IEEE-754 binary64 arithmetic.  `roundF64` is
round-to-nearest, ties-to-even at 53 significant bits — the exact behaviour
of `parseFloat` on a decimal literal and of a single JS `+`/`-` for values in
the binary64 normal range (overflow/subnormal thresholds are far beyond any
ledger amount and are not modelled). -/

/-- Fuel-indexed `⌊log₂ n⌋` on naturals (fuel `n` always suffices). -/
def natLog2Aux : ℕ → ℕ → ℕ
  | 0, _ => 0
  | fuel+1, n => if n ≤ 1 then 0 else natLog2Aux fuel (n / 2) + 1

/-- Computes `⌊log₂ n⌋` for `n ≥ 1`. -/
def natLog2 (n : ℕ) : ℕ := natLog2Aux n n

/-- Computes `2 ^ e` in `ℚ` for an integer exponent. -/
def qpow2 (e : ℤ) : ℚ := (2 : ℚ) ^ e

/-- Computes `⌊log₂ (a / b)⌋` for positive naturals `a`, `b`, computed in integer
arithmetic: `natLog2 a - natLog2 b` is off by at most one, fixed up by a
single comparison of `a / b` against that power of two. -/
def ilog2n (a b : ℕ) : ℤ :=
  let l : ℤ := (natLog2 a : ℤ) - (natLog2 b : ℤ)
  let lt : Bool :=
    if 0 ≤ l then decide (a < b * 2 ^ l.toNat) else decide (a * 2 ^ (-l).toNat < b)
  if lt then l - 1 else l

/-- Mantissa and exponent of the positive rational `a / b` rounded to 53
significant bits, round-to-nearest with ties to even: the pair `(m, e)` with
`m / (a / b * 2 ^ (-e))` the rounding of the 53-bit scaled value.  All control
flow is natural-number arithmetic. -/
def roundPosParts (a b : ℕ) : ℤ × ℤ :=
  let e : ℤ := ilog2n a b - 52
  let nn : ℕ := if 0 ≤ e then a else a * 2 ^ (-e).toNat
  let dd : ℕ := if 0 ≤ e then b * 2 ^ e.toNat else b
  let n : ℕ := nn / dd
  let rem : ℕ := nn % dd
  let m : ℕ :=
    if 2 * rem < dd then n
    else if dd < 2 * rem then n + 1
    else if n % 2 = 0 then n else n + 1
  ((m : ℤ), e)

/-- Round a rational to the nearest IEEE-754 binary64 value, ties to even
(normal range; ledger amounts are nowhere near the overflow or subnormal
thresholds, which are therefore not modelled).  This is the value semantics
of JS `parseFloat` on an exact decimal string and of each JS arithmetic
operator's result rounding. -/
def roundF64 (q : ℚ) : ℚ :=
  if q = 0 then 0
  else (if q < 0 then -1 else 1) * ((roundPosParts q.num.natAbs q.den).1 : ℚ) *
    qpow2 (roundPosParts q.num.natAbs q.den).2

/-- JS `a + b` on numbers: correctly rounded binary64 addition. -/
def jsAdd (a b : ℚ) : ℚ := roundF64 (a + b)

/-- JS `a - b` on numbers: correctly rounded binary64 subtraction. -/
def jsSub (a b : ℚ) : ℚ := roundF64 (a - b)

/-- Binary64 semantics of the per-account balance computation of
`calculateBalanceForDate` (dashboard.controller.js lines 70–74): each SQL
decimal aggregate is converted with `parseFloat` (one rounding each) and the
totals are combined as `openingBalance + incomingTotal - outgoingTotal` in JS
double arithmetic (left associated, each operation rounding). -/
def balanceFloat (opening incoming outgoing : ℚ) : ℚ :=
  jsSub (jsAdd (roundF64 opening) (roundF64 incoming)) (roundF64 outgoing)

/-! ## Concrete instances used by witnesses and counterexamples -/

/-- A sample account: opening balance 1000, low-balance threshold 50. -/
def acctW : BankAccount :=
  { id := 1, user_id := 1, bank_name := "First", account_number := "123",
    alias_name := "main", low_balance_threshold := some 50, opening_balance := some 1000 }

/-- A sample ledger: one account, one check each direction, one cash credit. -/
def dbW : Database :=
  { accounts := [acctW]
    checks := [{ id := 1, bank_account_id := 1, type := "incoming", amount := 200, date := 3 },
               { id := 2, bank_account_id := 1, type := "outgoing", amount := 75, date := 5 }]
    cash := [{ id := 1, user_id := 1, type := "credit", amount := 40, date := 4 }] }

/-- A ledger whose only row is a cash credit dated exactly day 2. -/
def dbC8 : Database :=
  { accounts := [], checks := [],
    cash := [{ id := 1, user_id := 1, type := "credit", amount := 5, date := 2 }] }

/-- A daily template that has already fired: `last_created_date` is set and
`next_due_date = calculateNextDueDate('daily', last_created_date)`. -/
def tmplC6 : RecurringTemplate :=
  { id := 1, user_id := 1, transaction_type := "cash", bank_account_id := none,
    check_type := none, cash_type := some "debit", amount := 5,
    payee_payer_name := none, description := none, frequency := "daily",
    start_date := ⟨2024, 0, 1⟩, end_date := none, day_of_month := none,
    day_of_week := none, is_active := true, last_created_date := some ⟨2024, 2, 5⟩,
    next_due_date := ⟨2024, 2, 6⟩ }

/-- An update payload that only (re)submits `frequency: 'daily'`. -/
def updC6 : RecurringUpdate :=
  { transaction_type := none, bank_account_id := none, check_type := none,
    cash_type := none, amount := none, payee_payer_name := none,
    description := none, frequency := some "daily", start_date := none,
    end_date := none, day_of_month := none, day_of_week := none, is_active := none }

/-- An active template whose `end_date` (2024-05-01) precedes its
`next_due_date` (2024-06-01); months are 0-based. -/
def tBadC5 : RecurringTemplate :=
  { id := 9, user_id := 1, transaction_type := "cash", bank_account_id := none,
    check_type := none, cash_type := some "debit", amount := 25,
    payee_payer_name := none, description := none, frequency := "monthly",
    start_date := ⟨2024, 0, 1⟩, end_date := some ⟨2024, 4, 1⟩, day_of_month := some 1,
    day_of_week := none, is_active := true, last_created_date := some ⟨2024, 4, 1⟩,
    next_due_date := ⟨2024, 5, 1⟩ }

/-- A cash template due on 2024-01-02. -/
def tW10 : RecurringTemplate :=
  { id := 3, user_id := 1, transaction_type := "cash", bank_account_id := none,
    check_type := none, cash_type := some "debit", amount := 5,
    payee_payer_name := none, description := none, frequency := "daily",
    start_date := ⟨2024, 0, 1⟩, end_date := none, day_of_month := none,
    day_of_week := none, is_active := true, last_created_date := none,
    next_due_date := ⟨2024, 0, 2⟩ }

/-- Collaborators that always throw on creation (e.g. account deleted). -/
def envFailW : JobEnv :=
  { createCheck := fun _ _ => Except.error "Bank account not found or access denied"
    createCashTransaction := fun _ _ => Except.error "storage failure"
    listFailure := none }

/-- Collaborators for which every creation succeeds. -/
def envOkW : JobEnv :=
  { createCheck := fun _ _ => Except.ok 1
    createCashTransaction := fun _ _ => Except.ok 2
    listFailure := none }

/-- An account with fractional opening balance 0.10. -/
def acctC3 : BankAccount :=
  { id := 1, user_id := 1, bank_name := "First", account_number := "123",
    alias_name := "main", low_balance_threshold := none, opening_balance := some (1 / 10) }

/-- A ledger with a single incoming check of 0.20 for that account. -/
def dbC3 : Database :=
  { accounts := [acctC3]
    checks := [{ id := 1, bank_account_id := 1, type := "incoming", amount := 2 / 10, date := 3 }]
    cash := [] }

/-! # Theorems -/

/-- Evaluates `parseFloat('0.1')`: the binary64 neighbour of 1/10. -/
theorem roundF64_point1 : roundF64 (1 / 10) = 3602879701896397 / 2 ^ 55 := by
  have h : roundPosParts ((1 : ℚ) / 10).num.natAbs ((1 : ℚ) / 10).den
      = (7205759403792794, -56) := by
    norm_num
    decide
  rw [roundF64, if_neg (by norm_num), h]
  norm_num [qpow2]

/-- Evaluates `parseFloat('0.2')`: the binary64 neighbour of 2/10. -/
theorem roundF64_point2 : roundF64 (2 / 10) = 3602879701896397 / 2 ^ 54 := by
  have h : roundPosParts ((2 : ℚ) / 10).num.natAbs ((2 : ℚ) / 10).den
      = (7205759403792794, -55) := by
    norm_num
    decide
  rw [roundF64, if_neg (by norm_num), h]
  norm_num [qpow2]

/-- Binary64 addition of the doubles nearest 0.1 and 0.2 rounds up: the JS
result `0.1 + 0.2 === 0.30000000000000004`. -/
theorem jsAdd_point1_point2 :
    jsAdd (3602879701896397 / 2 ^ 55) (3602879701896397 / 2 ^ 54)
      = 5404319552844596 / 2 ^ 54 := by
  rw [jsAdd]
  have hsum : (3602879701896397 / 2 ^ 55 + 3602879701896397 / 2 ^ 54 : ℚ)
      = 10808639105689191 / 2 ^ 55 := by norm_num
  rw [hsum]
  have h : roundPosParts ((10808639105689191 / 2 ^ 55 : ℚ)).num.natAbs
      ((10808639105689191 / 2 ^ 55 : ℚ)).den = (5404319552844596, -54) := by
    norm_num
    decide
  rw [roundF64, if_neg (by norm_num), h]
  norm_num [qpow2]

/-- Rounding fixes 0: `parseFloat` of a zero total is exact. -/
theorem roundF64_zero : roundF64 0 = 0 := by
  rw [roundF64]
  norm_num

/-- Subtracting an exactly-represented 0 does not round further. -/
theorem jsSub_drift_zero :
    jsSub (5404319552844596 / 2 ^ 54) 0 = 5404319552844596 / 2 ^ 54 := by
  rw [jsSub]
  have hsub : (5404319552844596 / 2 ^ 54 - 0 : ℚ) = 5404319552844596 / 2 ^ 54 := by
    norm_num
  rw [hsub]
  have h : roundPosParts ((5404319552844596 / 2 ^ 54 : ℚ)).num.natAbs
      ((5404319552844596 / 2 ^ 54 : ℚ)).den = (5404319552844596, -54) := by
    norm_num
    decide
  rw [roundF64, if_neg (by norm_num), h]
  norm_num [qpow2]

/-! ## C1: monthly advance with `dayOfMonth` -/

/-- C1: the claim says `nextDueDate('monthly', 2024-01-31, dayOfMonth=31)`
clamps to 2024-02-29.  In the source, `setMonth` first overflows Feb 31 to
Mar 2 and the subsequent clamp happens inside March, so the code returns
2024-03-31 (months are 0-based), contradicting both the claim and the
source's own comment `Feb 31 -> Feb 28`. -/
theorem C1_monthly_day31_skips_february :
    calculateNextDueDate "monthly" ⟨2024, 0, 31⟩ (some 31) none = ⟨2024, 2, 31⟩ ∧
    calculateNextDueDate "monthly" ⟨2024, 0, 31⟩ (some 31) none ≠ ⟨2024, 1, 29⟩ := by
  decide

/-! ## C5: the due-set filter -/

/-- Membership in the due set is membership in the store plus the `WHERE`
filter. -/
theorem mem_getDue_iff (store : List RecurringTemplate) (asOf : JSDate)
    (t : RecurringTemplate) :
    t ∈ getDueRecurringTransactions store asOf ↔ t ∈ store ∧ isDue asOf t = true := by
  unfold getDueRecurringTransactions
  rw [List.mem_insertionSort, List.mem_filter]

/-- The Bool filter unfolded to its propositional form. -/
theorem isDue_iff (asOf : JSDate) (t : RecurringTemplate) :
    isDue asOf t = true ↔
      t.is_active = true ∧ toOrdinal t.next_due_date ≤ toOrdinal asOf ∧
      (∀ ed, t.end_date = some ed → toOrdinal t.next_due_date ≤ toOrdinal ed) ∧
      toOrdinal t.start_date ≤ toOrdinal t.next_due_date := by
  unfold isDue
  cases h : t.end_date with
  | none => simp [h, and_assoc]
  | some ed => simp [h, and_assoc, ge_iff_le]

/-- C5: `findDue(asOfDate)` returns exactly the templates with
`is_active == true AND next_due_date ≤ asOfDate AND start_date ≤
next_due_date AND (end_date IS NULL OR end_date ≥ next_due_date)`, ordered
ascending by `next_due_date`; consequently a template with `next_due_date`
2024-06-01 and `end_date` 2024-05-01 is never returned for any `asOfDate`
(dates below use 0-based months). -/
theorem C5_findDue_filter_and_order (store : List RecurringTemplate) (asOf : JSDate) :
    (∀ t, t ∈ getDueRecurringTransactions store asOf ↔
      t ∈ store ∧ t.is_active = true ∧
      toOrdinal t.next_due_date ≤ toOrdinal asOf ∧
      toOrdinal t.start_date ≤ toOrdinal t.next_due_date ∧
      (∀ ed, t.end_date = some ed → toOrdinal t.next_due_date ≤ toOrdinal ed)) ∧
    List.Pairwise nextDueLE (getDueRecurringTransactions store asOf) ∧
    (∀ t, t.next_due_date = ⟨2024, 5, 1⟩ → t.end_date = some ⟨2024, 4, 1⟩ →
      t ∉ getDueRecurringTransactions store asOf) := by
  refine ⟨fun t => ?_, ?_, fun t h1 h2 hmem => ?_⟩
  · rw [mem_getDue_iff, isDue_iff]
    tauto
  · exact List.sorted_insertionSort nextDueLE _
  · have h := ((mem_getDue_iff store asOf t).mp hmem).2
    rw [isDue_iff] at h
    have hend := h.2.2.1 ⟨2024, 4, 1⟩ h2
    rw [h1] at hend
    have : toOrdinal ⟨2024, 4, 1⟩ < toOrdinal ⟨2024, 5, 1⟩ := by decide
    omega

/-- C5 witness: the concrete expired-end-date template is not returned even
for a far-future `asOfDate`. -/
theorem C5_witness : tBadC5 ∉ getDueRecurringTransactions [tBadC5] ⟨2030, 0, 1⟩ :=
  (C5_findDue_filter_and_order [tBadC5] ⟨2030, 0, 1⟩).2.2 tBadC5 rfl rfl

/-! ## C6: fire advances the schedule state -/

/-- Marking rewrites exactly the row `markRecurringTransactionCreated` found:
`last_created_date` becomes the created date and `next_due_date` is
recomputed from it. -/
theorem find?_map_update (as : List RecurringTemplate) (rid : ℕ)
    (f : RecurringTemplate → RecurringTemplate) (hid : ∀ u, (f u).id = u.id)
    (t : RecurringTemplate) (h : as.find? (fun u => u.id == rid) = some t) :
    (as.map fun u => if (u.id == rid) = true then f u else u).find?
      (fun u => u.id == rid) = some (f t) := by
  induction as with
  | nil => simp at h
  | cons a as ih =>
    rw [List.map_cons]
    by_cases ha : (a.id == rid) = true
    · rw [List.find?_cons_of_pos (p := fun (u : RecurringTemplate) => u.id == rid) as ha] at h
      obtain rfl : a = t := by simpa using h
      rw [if_pos ha]
      exact List.find?_cons_of_pos (p := fun (u : RecurringTemplate) => u.id == rid) _ (by simpa [hid] using ha)
    · rw [List.find?_cons_of_neg (p := fun (u : RecurringTemplate) => u.id == rid) as ha] at h
      rw [if_neg ha,
        List.find?_cons_of_neg (p := fun (u : RecurringTemplate) => u.id == rid) _ (by simpa [hid] using ha)]
      exact ih h

theorem find?_mark_eq (store : List RecurringTemplate) (rid : ℕ) (d : JSDate)
    (t : RecurringTemplate) (h : store.find? (fun u => u.id == rid) = some t) :
    (markRecurringTransactionCreated store rid d).find? (fun u => u.id == rid)
      = some { t with
          last_created_date := some d
          next_due_date :=
            calculateNextDueDate t.frequency d t.day_of_month t.day_of_week } := by
  simp only [markRecurringTransactionCreated, h]
  exact find?_map_update store rid
    (fun u => { u with
      last_created_date := some d
      next_due_date := calculateNextDueDate t.frequency d t.day_of_month t.day_of_week })
    (fun u => rfl) t h

/-- C6 (amended): after a successful fire, the fired row's state is
`last_created_date = effectiveDate` and `next_due_date =
calculateNextDueDate(frequency, effectiveDate, dayOfMonth, dayOfWeek)`, which
(re-)establishes the schedule invariant; creation establishes it as well.
(The update operation does not preserve it — see the counterexample.) -/
theorem C6_fire_advances_schedule :
    (∀ (store : List RecurringTemplate) (rid : ℕ) (d : JSDate) (t : RecurringTemplate),
      store.find? (fun u => u.id == rid) = some t →
        (markRecurringTransactionCreated store rid d).find? (fun u => u.id == rid)
          = some { t with
              last_created_date := some d
              next_due_date :=
                calculateNextDueDate t.frequency d t.day_of_month t.day_of_week } ∧
        ScheduleInvariant { t with
          last_created_date := some d
          next_due_date :=
            calculateNextDueDate t.frequency d t.day_of_month t.day_of_week }) ∧
    (∀ (newId userId : ℕ) (dta : RecurringData),
      ScheduleInvariant (createRecurringTransaction newId userId dta)) :=
  ⟨fun store rid d t h => ⟨find?_mark_eq store rid d t h, rfl⟩,
   fun _ _ _ => rfl⟩

/-- C6 counterexample: `updateRecurringTransaction` violates the claimed
"every operation preserves the invariant".  The template satisfies the
invariant (anchored at its `last_created_date` 2024-03-05), but an update
that merely re-submits `frequency: 'daily'` recomputes `next_due_date` from
`start_date` 2024-01-01 instead of the anchor, breaking the invariant. -/
theorem C6_update_breaks_invariant :
    ScheduleInvariant tmplC6 ∧
    ¬ ScheduleInvariant (updateRecurringTransaction tmplC6 updC6) := by
  constructor
  · decide
  · decide

/-- C6 witness: marking the concrete store's only template created on
2024-04-01 leaves it with that `last_created_date` and the recomputed
`next_due_date`. -/
theorem C6_witness :
    (markRecurringTransactionCreated [tmplC6] 1 ⟨2024, 3, 1⟩).find? (fun u => u.id == 1)
      = some { tmplC6 with
          last_created_date := some ⟨2024, 3, 1⟩
          next_due_date :=
            calculateNextDueDate tmplC6.frequency ⟨2024, 3, 1⟩
              tmplC6.day_of_month tmplC6.day_of_week } :=
  (C6_fire_advances_schedule.1 [tmplC6] 1 ⟨2024, 3, 1⟩ tmplC6 rfl).1

/-! ## C2, C7, C8: the balance engine -/

/-- The account loop collects exactly one pushed record per account, in
order. -/
theorem balanceLoop_snd (db : Database) (date : ℕ) (as : List BankAccount) (init : ℚ) :
    (balanceLoop db date as init).2 = as.map (accountEntry db date) := by
  induction as generalizing init with
  | nil => rfl
  | cons a l ih => simp [balanceLoop, ih]

/-- The sequential `overallBalance += balance` accumulation equals the
starting value plus the sum of the pushed balances. -/
theorem balanceLoop_fst (db : Database) (date : ℕ) (as : List BankAccount) (init : ℚ) :
    (balanceLoop db date as init).1
      = init + ((as.map (accountEntry db date)).map (fun e => e.balance)).sum := by
  induction as generalizing init with
  | nil => simp [balanceLoop]
  | cons a l ih =>
    simp only [balanceLoop, List.map_cons, List.sum_cons, ih]
    ring

/-- C2 (amended): in the exact-decimal reading of `calculateBalanceForDate`
(SQL aggregates kept as exact rationals instead of the program's binary64
evaluation), every per-account balance is `opening_balance + incoming(≤
date) − outgoing(≤ date)` for an account of the user, `overall_balance =
cash_net(≤ date) + Σ per-account balances`, and `cash_balance` is the cash
net.  The program's own binary64 arithmetic can drift from these exact sums
— see the C2 counterexample below — so the original claim's equalities hold
of the ideal decimal semantics, only up to IEEE-754 rounding of the
program's values. -/
theorem C2_balance_additivity (db : Database) (userId date : ℕ) :
    (∀ ab ∈ (calculateBalanceForDate db userId date).account_balances,
      ∃ a, a ∈ db.accounts ∧ a.user_id = userId ∧
        ab.balance = a.opening_balance.getD 0
          + checksSum db a.id "incoming" date - checksSum db a.id "outgoing" date) ∧
    (calculateBalanceForDate db userId date).overall_balance
      = cashCreditTotal db userId date - cashDebitTotal db userId date
        + ((calculateBalanceForDate db userId date).account_balances.map
            (fun ab => ab.balance)).sum ∧
    (calculateBalanceForDate db userId date).cash_balance
      = cashCreditTotal db userId date - cashDebitTotal db userId date := by
  refine ⟨fun ab hab => ?_, ?_, rfl⟩
  · have hsnd : (calculateBalanceForDate db userId date).account_balances
        = (db.accounts.filter fun a => a.user_id == userId).map (accountEntry db date) :=
      balanceLoop_snd db date _ _
    rw [hsnd] at hab
    obtain ⟨a, ha, rfl⟩ := List.mem_map.mp hab
    have hfa := List.mem_filter.mp ha
    exact ⟨a, hfa.1, by simpa using hfa.2, rfl⟩
  · show (balanceLoop db date _ _).1 = _ + ((balanceLoop db date _ _).2.map _).sum
    rw [balanceLoop_fst, balanceLoop_snd]

/-- C2 counterexample: the original claim asserts the program's per-account
balance equals the exact sum `opening_balance + incoming(≤ d) − outgoing(≤
d)`.  At the concrete ledger `dbC3` (opening 0.10, one incoming check 0.20
dated ≤ 5), the program's balance — the binary64 evaluation
`balanceFloat(opening, incomingTotal, outgoingTotal)` of
dashboard.controller.js lines 70–74 applied to that ledger's SQL aggregates
— differs from the claimed exact sum: it is 0.30000000000000004, not 0.30. -/
theorem C2_counterexample :
    balanceFloat (acctC3.opening_balance.getD 0)
        (checksSum dbC3 acctC3.id "incoming" 5) (checksSum dbC3 acctC3.id "outgoing" 5)
      ≠ acctC3.opening_balance.getD 0
        + checksSum dbC3 acctC3.id "incoming" 5 - checksSum dbC3 acctC3.id "outgoing" 5 := by
  have hin : checksSum dbC3 acctC3.id "incoming" 5 = 2 / 10 := by
    simp [checksSum, dbC3, acctC3]
  have hout : checksSum dbC3 acctC3.id "outgoing" 5 = 0 := by
    simp [checksSum, dbC3, acctC3]
  have hop : acctC3.opening_balance.getD 0 = 1 / 10 := rfl
  rw [hin, hout, hop, balanceFloat, roundF64_point1, roundF64_point2, roundF64_zero,
    jsAdd_point1_point2, jsSub_drift_zero]
  norm_num

/-- C2 witness: in the sample ledger, the single pushed record's balance is
the account's opening balance plus incoming minus outgoing. -/
theorem C2_witness :
    ∃ a, a ∈ dbW.accounts ∧ a.user_id = 1 ∧
      (accountEntry dbW 10 acctW).balance = a.opening_balance.getD 0
        + checksSum dbW a.id "incoming" 10 - checksSum dbW a.id "outgoing" 10 :=
  (C2_balance_additivity dbW 1 10).1 (accountEntry dbW 10 acctW) (by
    have hsnd : (calculateBalanceForDate dbW 1 10).account_balances
        = (dbW.accounts.filter fun a => a.user_id == 1).map (accountEntry dbW 10) :=
      balanceLoop_snd dbW 10 _ _
    rw [hsnd]
    simp [dbW, acctW])

/-- C7: `is_low_balance` is true exactly when the computed balance is
strictly below the threshold carried in the record, and that threshold is
the account's `low_balance_threshold` defaulted to 0 when unset. -/
theorem C7_low_balance_flag (db : Database) (userId date : ℕ) :
    ∀ ab ∈ (calculateBalanceForDate db userId date).account_balances,
      (ab.is_low_balance = true ↔ ab.balance < ab.low_balance_threshold) ∧
      ∃ a, a ∈ db.accounts ∧ a.user_id = userId ∧
        ab.low_balance_threshold = a.low_balance_threshold.getD 0 := by
  intro ab hab
  have hsnd : (calculateBalanceForDate db userId date).account_balances
      = (db.accounts.filter fun a => a.user_id == userId).map (accountEntry db date) :=
    balanceLoop_snd db date _ _
  rw [hsnd] at hab
  obtain ⟨a, ha, rfl⟩ := List.mem_map.mp hab
  have hfa := List.mem_filter.mp ha
  exact ⟨decide_eq_true_iff, a, hfa.1, by simpa using hfa.2, rfl⟩

/-- C7 witness: the sample account's record satisfies the if-and-only-if
characterisation and carries its configured threshold. -/
theorem C7_witness :
    ((accountEntry dbW 10 acctW).is_low_balance = true ↔
      (accountEntry dbW 10 acctW).balance < (accountEntry dbW 10 acctW).low_balance_threshold) ∧
    ∃ a, a ∈ dbW.accounts ∧ a.user_id = 1 ∧
      (accountEntry dbW 10 acctW).low_balance_threshold = a.low_balance_threshold.getD 0 :=
  C7_low_balance_flag dbW 1 10 (accountEntry dbW 10 acctW) (by
    have hsnd : (calculateBalanceForDate dbW 1 10).account_balances
        = (dbW.accounts.filter fun a => a.user_id == 1).map (accountEntry dbW 10) :=
      balanceLoop_snd dbW 10 _ _
    rw [hsnd]
    simp [dbW, acctW])

/-- C8 (amended): snapshots at `d1 < d2` have identical balance fields when
no ledger row is dated in the half-open interval `(d1, d2]` — the original
"strictly between" is refuted below by a row dated exactly `d2`. -/
theorem C8_stable_history (db : Database) (u d1 d2 : ℕ) (hlt : d1 < d2)
    (hch : ∀ c ∈ db.checks, ¬(d1 < c.date ∧ c.date ≤ d2))
    (hca : ∀ r ∈ db.cash, ¬(d1 < r.date ∧ r.date ≤ d2)) :
    (calculateBalanceForDate db u d1).overall_balance
      = (calculateBalanceForDate db u d2).overall_balance ∧
    (calculateBalanceForDate db u d1).account_balances
      = (calculateBalanceForDate db u d2).account_balances ∧
    (calculateBalanceForDate db u d1).cash_balance
      = (calculateBalanceForDate db u d2).cash_balance := by
  have hcash : ∀ r ∈ db.cash, (decide (r.date ≤ d1) : Bool) = decide (r.date ≤ d2) := by
    intro r hr
    have := hca r hr
    exact decide_eq_decide.mpr (by omega)
  have hcheck : ∀ c ∈ db.checks, (decide (c.date ≤ d1) : Bool) = decide (c.date ≤ d2) := by
    intro c hc
    have := hch c hc
    exact decide_eq_decide.mpr (by omega)
  have hcredit : cashCreditTotal db u d1 = cashCreditTotal db u d2 := by
    unfold cashCreditTotal
    rw [List.filter_congr (fun r hr => by rw [hcash r hr])]
  have hdebit : cashDebitTotal db u d1 = cashDebitTotal db u d2 := by
    unfold cashDebitTotal
    rw [List.filter_congr (fun r hr => by rw [hcash r hr])]
  have hsum : ∀ (aid : ℕ) (ty : String),
      checksSum db aid ty d1 = checksSum db aid ty d2 := by
    intro aid ty
    unfold checksSum
    rw [List.filter_congr (fun c hc => by rw [hcheck c hc])]
  have hentry : ∀ a : BankAccount, accountEntry db d1 a = accountEntry db d2 a := by
    intro a
    unfold accountEntry
    rw [hsum a.id "incoming", hsum a.id "outgoing"]
  have hmap : ∀ l : List BankAccount,
      l.map (accountEntry db d1) = l.map (accountEntry db d2) :=
    fun l => List.map_congr_left (fun a _ => hentry a)
  refine ⟨?_, ?_, ?_⟩
  · show (balanceLoop db d1 _ _).1 = (balanceLoop db d2 _ _).1
    rw [balanceLoop_fst, balanceLoop_fst, hcredit, hdebit, hmap]
  · show (balanceLoop db d1 _ _).2 = (balanceLoop db d2 _ _).2
    rw [balanceLoop_snd, balanceLoop_snd, hmap]
  · show cashCreditTotal db u d1 - cashDebitTotal db u d1
      = cashCreditTotal db u d2 - cashDebitTotal db u d2
    rw [hcredit, hdebit]

/-- C8 counterexample: a ledger whose only row is a cash credit dated
exactly `d2 = 2` has no row strictly between `d1 = 1` and `d2 = 2`, yet the
two snapshots differ (the row is included at `d2` but not at `d1`). -/
theorem C8_counterexample :
    (1 : ℕ) < 2 ∧
    (∀ c ∈ dbC8.checks, ¬((1 : ℕ) < c.date ∧ c.date < 2)) ∧
    (∀ r ∈ dbC8.cash, ¬((1 : ℕ) < r.date ∧ r.date < 2)) ∧
    calculateBalanceForDate dbC8 1 1 ≠ calculateBalanceForDate dbC8 1 2 := by
  refine ⟨by norm_num, by simp [dbC8], by simp [dbC8], fun h => ?_⟩
  have hfields := congrArg BalanceResult.cash_balance h
  have h1 : (calculateBalanceForDate dbC8 1 1).cash_balance = 0 := by
    simp [calculateBalanceForDate, cashCreditTotal, cashDebitTotal, dbC8]
  have h2 : (calculateBalanceForDate dbC8 1 2).cash_balance = 5 := by
    simp [calculateBalanceForDate, cashCreditTotal, cashDebitTotal, dbC8]
  rw [h1, h2] at hfields
  norm_num at hfields

/-- C8 witness: in the sample ledger all rows are dated at most 5, so the
snapshots at days 6 and 9 agree on every balance field. -/
theorem C8_witness :
    (calculateBalanceForDate dbW 1 6).overall_balance
      = (calculateBalanceForDate dbW 1 9).overall_balance ∧
    (calculateBalanceForDate dbW 1 6).account_balances
      = (calculateBalanceForDate dbW 1 9).account_balances ∧
    (calculateBalanceForDate dbW 1 6).cash_balance
      = (calculateBalanceForDate dbW 1 9).cash_balance :=
  C8_stable_history dbW 1 6 9 (by norm_num) (by decide) (by decide)

/-! ## C4, C10: the batch job -/

/-- Partition of a list's length by a Bool predicate. -/
theorem length_filter_partition {α : Type} (p : α → Bool) (l : List α) :
    (l.filter p).length + (l.filter fun a => !p a).length = l.length := by
  induction l with
  | nil => rfl
  | cons a l ih => cases h : p a <;> simp [List.filter_cons, h] <;> omega

/-- The loop's summary accumulates one `processed` per successful creation
and one `failed` plus one error entry per failing creation, in order. -/
theorem processLoop_results (env : JobEnv) (d : JSDate) :
    ∀ (due store : List RecurringTemplate) (res : JobResults),
      (processLoop env d due store res).1.processed
        = res.processed + (due.filter (okCreate env d)).length ∧
      (processLoop env d due store res).1.failed
        = res.failed + (due.filter fun t => !okCreate env d t).length ∧
      (processLoop env d due store res).1.errors
        = res.errors ++ (due.filter fun t => !okCreate env d t).map
            (fun t => ⟨t.id, errOf env d t⟩) := by
  intro due
  induction due with
  | nil =>
    intro store res
    simp [processLoop]
  | cons t rest ih =>
    intro store res
    cases hA : attemptCreate env d t with
    | ok v =>
      have hok : okCreate env d t = true := by simp [okCreate, hA]
      simp only [processLoop, hA]
      obtain ⟨h1, h2, h3⟩ :=
        ih (markRecurringTransactionCreated store t.id d) { res with processed := res.processed + 1 }
      refine ⟨?_, ?_, ?_⟩
      · rw [h1, List.filter_cons_of_pos hok]
        simp
        omega
      · rw [h2, List.filter_cons_of_neg (by simp [hok])]
      · rw [h3, List.filter_cons_of_neg (by simp [hok])]
    | error e =>
      have hok : okCreate env d t = false := by simp [okCreate, hA]
      have herr : errOf env d t = e := by simp [errOf, hA]
      simp only [processLoop, hA]
      obtain ⟨h1, h2, h3⟩ := ih store
        { res with failed := res.failed + 1, errors := res.errors ++ [⟨t.id, e⟩] }
      refine ⟨?_, ?_, ?_⟩
      · rw [h1, List.filter_cons_of_neg (by simp [hok])]
      · rw [h2, List.filter_cons_of_pos (by simp [hok])]
        simp
        omega
      · rw [h3, List.filter_cons_of_pos (by simp [hok]), List.map_cons, herr]
        simp

/-- C4: with listing intact, the job completes with `.ok` and a summary in
which `processed` counts the due templates whose creation succeeded, `failed`
counts those whose creation threw, `errors` records exactly one
`{recurring_transaction_id, error}` entry per failing template (in processing
order), and every due template is accounted for; a listing failure
propagates as the job's only thrown error. -/
theorem C4_batch_isolation (env : JobEnv) (store : List RecurringTemplate) (d : JSDate) :
    (∀ e, env.listFailure = some e →
      processDueRecurringTransactions env store d = Except.error e) ∧
    (env.listFailure = none →
      ∃ res newStore,
        processDueRecurringTransactions env store d = Except.ok (res, newStore) ∧
        res.processed
          = ((getDueRecurringTransactions store d).filter (okCreate env d)).length ∧
        res.failed
          = ((getDueRecurringTransactions store d).filter
              fun t => !okCreate env d t).length ∧
        res.errors
          = ((getDueRecurringTransactions store d).filter
              fun t => !okCreate env d t).map (fun t => ⟨t.id, errOf env d t⟩) ∧
        res.processed + res.failed = (getDueRecurringTransactions store d).length) := by
  constructor
  · intro e he
    unfold processDueRecurringTransactions
    rw [he]
  · intro hnone
    unfold processDueRecurringTransactions
    rw [hnone]
    obtain ⟨h1, h2, h3⟩ := processLoop_results env d
      (getDueRecurringTransactions store d) store ⟨0, 0, []⟩
    refine ⟨_, _, rfl, ?_, ?_, ?_, ?_⟩
    · simpa using h1
    · simpa using h2
    · simpa using h3
    · rw [h1, h2]
      simpa using length_filter_partition (okCreate env d) (getDueRecurringTransactions store d)

/-- C4 witness: with collaborators that always throw, processing the single
due template yields `{processed: 0, failed: 1}` with its error recorded, and
the job still resolves with a summary. -/
theorem C4_witness :
    ∃ res newStore,
      processDueRecurringTransactions envFailW [tW10] ⟨2024, 0, 2⟩
        = Except.ok (res, newStore) ∧
      res.processed
        = ((getDueRecurringTransactions [tW10] ⟨2024, 0, 2⟩).filter
            (okCreate envFailW ⟨2024, 0, 2⟩)).length ∧
      res.failed
        = ((getDueRecurringTransactions [tW10] ⟨2024, 0, 2⟩).filter
            fun t => !okCreate envFailW ⟨2024, 0, 2⟩ t).length ∧
      res.errors
        = ((getDueRecurringTransactions [tW10] ⟨2024, 0, 2⟩).filter
            fun t => !okCreate envFailW ⟨2024, 0, 2⟩ t).map
              (fun t => ⟨t.id, errOf envFailW ⟨2024, 0, 2⟩ t⟩) ∧
      res.processed + res.failed = (getDueRecurringTransactions [tW10] ⟨2024, 0, 2⟩).length :=
  (C4_batch_isolation envFailW [tW10] ⟨2024, 0, 2⟩).2 rfl

/-- Selective per-id updates leave the rows with any other id untouched. -/
theorem filter_map_update_other (as : List RecurringTemplate) (rid tid : ℕ)
    (hne : rid ≠ tid) (f : RecurringTemplate → RecurringTemplate)
    (hid : ∀ u, (f u).id = u.id) :
    (as.map fun u => if (u.id == rid) = true then f u else u).filter
      (fun u => u.id == tid) = as.filter (fun u => u.id == tid) := by
  induction as with
  | nil => rfl
  | cons a as ih =>
    rw [List.map_cons]
    by_cases hra : (a.id == rid) = true
    · have haid : a.id = rid := by simpa using hra
      rw [if_pos hra,
        List.filter_cons_of_neg (p := fun (u : RecurringTemplate) => u.id == tid)
          (by simp [hid, haid, hne]),
        List.filter_cons_of_neg (p := fun (u : RecurringTemplate) => u.id == tid)
          (by simp [haid, hne])]
      exact ih
    · rw [if_neg hra]
      by_cases h : ((a.id == tid) = true)
      · rw [List.filter_cons_of_pos (p := fun (u : RecurringTemplate) => u.id == tid) h,
          List.filter_cons_of_pos (p := fun (u : RecurringTemplate) => u.id == tid) h, ih]
      · rw [List.filter_cons_of_neg (p := fun (u : RecurringTemplate) => u.id == tid) h,
          List.filter_cons_of_neg (p := fun (u : RecurringTemplate) => u.id == tid) h, ih]

/-- Marking one id with `markRecurringTransactionCreated` does not change the rows of
any other id. -/
theorem mark_filter_other (store : List RecurringTemplate) (rid : ℕ) (d : JSDate)
    (tid : ℕ) (hne : rid ≠ tid) :
    (markRecurringTransactionCreated store rid d).filter (fun u => u.id == tid)
      = store.filter (fun u => u.id == tid) := by
  unfold markRecurringTransactionCreated
  cases h : store.find? (fun u => u.id == rid) with
  | none => rfl
  | some cur => exact filter_map_update_other store rid tid hne _ (fun u => rfl)

/-- Rows whose id never belongs to a successfully created due template are
untouched by the whole loop. -/
theorem processLoop_store_filter (env : JobEnv) (d : JSDate) (tid : ℕ) :
    ∀ (due store : List RecurringTemplate) (res : JobResults),
      (∀ t ∈ due, okCreate env d t = true → t.id ≠ tid) →
      ((processLoop env d due store res).2).filter (fun u => u.id == tid)
        = store.filter (fun u => u.id == tid) := by
  intro due
  induction due with
  | nil =>
    intro store res _
    rfl
  | cons t rest ih =>
    intro store res hh
    cases hA : attemptCreate env d t with
    | ok v =>
      simp only [processLoop, hA]
      rw [ih _ _ (fun u hu => hh u (List.mem_cons_of_mem _ hu))]
      exact mark_filter_other store t.id d tid
        (hh t (List.mem_cons_self t rest) (by simp [okCreate, hA]))
    | error e =>
      simp only [processLoop, hA]
      exact ih _ _ (fun u hu => hh u (List.mem_cons_of_mem _ hu))

/-- Distinct store ids stay distinct in the due list. -/
theorem getDue_ids_nodup (store : List RecurringTemplate) (d : JSDate)
    (h : (store.map (fun t => t.id)).Nodup) :
    ((getDueRecurringTransactions store d).map (fun t => t.id)).Nodup := by
  unfold getDueRecurringTransactions
  have hperm := (List.perm_insertionSort nextDueLE (store.filter (isDue d))).map
    (fun t => t.id)
  rw [hperm.nodup_iff]
  exact h.sublist (List.Sublist.map _ (List.filter_sublist store))

/-- C10: if a due template's creation throws (and store ids are distinct),
the job still resolves, and that template's stored row — in particular its
`last_created_date` and `next_due_date` — is unchanged in the resulting
store. -/
theorem C10_no_advance_on_failure (env : JobEnv) (store : List RecurringTemplate)
    (d : JSDate) (t : RecurringTemplate) (e : String)
    (hnodup : (store.map (fun u => u.id)).Nodup)
    (hmem : t ∈ getDueRecurringTransactions store d)
    (hfail : attemptCreate env d t = Except.error e)
    (hlist : env.listFailure = none) :
    ∃ res newStore,
      processDueRecurringTransactions env store d = Except.ok (res, newStore) ∧
      newStore.filter (fun u => u.id == t.id) = store.filter (fun u => u.id == t.id) := by
  unfold processDueRecurringTransactions
  rw [hlist]
  refine ⟨_, _, rfl, ?_⟩
  apply processLoop_store_filter
  intro u hu hok hEq
  have hut : u = t :=
    List.inj_on_of_nodup_map (getDue_ids_nodup store d hnodup) hu hmem hEq
  rw [hut] at hok
  simp [okCreate, hfail] at hok

/-- C10 witness: the failing cash template's row is intact after the run. -/
theorem C10_witness :
    ∃ res newStore,
      processDueRecurringTransactions envFailW [tW10] ⟨2024, 0, 2⟩
        = Except.ok (res, newStore) ∧
      newStore.filter (fun u => u.id == tW10.id)
        = List.filter (fun u => u.id == tW10.id) [tW10] :=
  C10_no_advance_on_failure envFailW [tW10] ⟨2024, 0, 2⟩ tW10 "storage failure"
    (by decide)
    ((mem_getDue_iff [tW10] ⟨2024, 0, 2⟩ tW10).mpr ⟨List.mem_singleton.mpr rfl, by decide⟩)
    rfl rfl

/-! ## C9: strict forward progress of the scheduler

Supporting calendar arithmetic: `toOrdinal` is invariant under the JS
day-overflow normalization, and advancing the month or year strictly
increases it. -/

theorem daysInMonth_ge (y m : ℕ) : 28 ≤ daysInMonth y m := by
  unfold daysInMonth
  split_ifs <;> norm_num

theorem daysInMonth_le (y m : ℕ) : daysInMonth y m ≤ 31 := by
  unfold daysInMonth
  split_ifs <;> norm_num

theorem leapsBefore_succ (y : ℕ) :
    leapsBefore (y + 1) = leapsBefore y + (if isLeapYear y = true then 1 else 0) := by
  rcases Nat.eq_zero_or_pos y with rfl | hy
  · decide
  · have hiff : isLeapYear y = true ↔ (y % 4 = 0 ∧ (¬ y % 100 = 0 ∨ y % 400 = 0)) := by
      simp [isLeapYear]
    unfold leapsBefore
    rw [if_neg (by omega : ¬ y + 1 = 0), if_neg (by omega : ¬ y = 0)]
    simp only [Nat.add_sub_cancel]
    by_cases hl : isLeapYear y = true
    · rw [if_pos hl]
      rw [hiff] at hl
      omega
    · rw [if_neg hl]
      rw [hiff] at hl
      by_cases h4 : y % 4 = 0
      · by_cases h100 : y % 100 = 0
        · by_cases h400 : y % 400 = 0
          · exact absurd ⟨h4, Or.inr h400⟩ hl
          · omega
        · exact absurd ⟨h4, Or.inl h100⟩ hl
      · omega

set_option maxHeartbeats 1000000 in
theorem monthOffset_succ (y m : ℕ) (hm : m ≤ 10) :
    monthOffset y (m + 1) = monthOffset y m + daysInMonth y m := by
  cases h : isLeapYear y <;>
    interval_cases m <;>
      simp [monthOffset, monthOffsetBase, daysInMonth, h]

theorem monthOffset_bounds (y m : ℕ) :
    monthOffsetBase m ≤ monthOffset y m ∧ monthOffset y m ≤ monthOffsetBase m + 1 := by
  unfold monthOffset
  split_ifs <;> omega

theorem normDay_month_le (fuel : ℕ) :
    ∀ dt : JSDate, dt.month ≤ 11 → (normDay fuel dt).month ≤ 11 := by
  induction fuel with
  | zero => exact fun dt h => h
  | succ n ih =>
    intro dt h
    simp only [normDay]
    split_ifs with hle h11
    · exact h
    · exact ih _ (by norm_num)
    · exact ih _ (by simp; omega)

theorem normDay_day_le (fuel : ℕ) :
    ∀ dt : JSDate, (normDay fuel dt).day ≤ dt.day := by
  induction fuel with
  | zero => exact fun dt => Nat.le_refl _
  | succ n ih =>
    intro dt
    simp only [normDay]
    split_ifs with hle h11
    · exact Nat.le_refl _
    · exact Nat.le_trans (ih _) (by simp)
    · exact Nat.le_trans (ih _) (by simp)

theorem normDay_day_pos (fuel : ℕ) :
    ∀ dt : JSDate, 1 ≤ dt.day → 1 ≤ (normDay fuel dt).day := by
  induction fuel with
  | zero => exact fun dt h => h
  | succ n ih =>
    intro dt h
    have hge := daysInMonth_ge dt.year dt.month
    simp only [normDay]
    split_ifs with hle h11
    · exact h
    · exact ih _ (by simp; omega)
    · exact ih _ (by simp; omega)

theorem normDay_toOrdinal (fuel : ℕ) :
    ∀ dt : JSDate, dt.month ≤ 11 → toOrdinal (normDay fuel dt) = toOrdinal dt := by
  induction fuel with
  | zero => exact fun dt _ => rfl
  | succ n ih =>
    intro dt hm
    obtain ⟨y, m, d⟩ := dt
    simp only at hm
    simp only [normDay]
    split_ifs with hle h11
    · rfl
    · simp only at hle h11
      subst h11
      have hd31 : daysInMonth y 11 = 31 := by simp [daysInMonth]
      rw [hd31] at hle ⊢
      rw [ih _ (by norm_num)]
      have hls := leapsBefore_succ y
      by_cases hly : isLeapYear y = true <;>
        simp [toOrdinal, monthOffset, monthOffsetBase, hly, hls] <;>
          omega
    · simp only at hle h11
      have hm10 : m ≤ 10 := by omega
      rw [ih _ (by simp; omega)]
      have hge := daysInMonth_ge y m
      simp only [toOrdinal]
      rw [monthOffset_succ y m hm10]
      omega

theorem setDate_eq (dt : JSDate) (x : ℕ) (hx : x ≤ daysInMonth dt.year dt.month) :
    setDate dt x = ⟨dt.year, dt.month, x⟩ := by
  unfold setDate
  simp only [normDay]
  rw [if_pos (by simpa using hx)]

theorem toOrdinal_setMonth_succ (dt : JSDate) (hm : dt.month ≤ 11) :
    toOrdinal (setMonth dt (dt.month + 1)) = toOrdinal dt + daysInMonth dt.year dt.month := by
  obtain ⟨y, m, d⟩ := dt
  simp only at hm
  unfold setMonth
  by_cases h11 : m = 11
  · subst h11
    rw [normDay_toOrdinal _ _ (by norm_num)]
    have hd31 : daysInMonth y 11 = 31 := by simp [daysInMonth]
    have hls := leapsBefore_succ y
    rw [hd31]
    by_cases hly : isLeapYear y = true <;>
      simp [toOrdinal, monthOffset, monthOffsetBase, hly, hls] <;>
        omega
  · have hm10 : m ≤ 10 := by omega
    have e1 : (m + 1) / 12 = 0 := by omega
    have e2 : (m + 1) % 12 = m + 1 := by omega
    simp only [e1, e2, Nat.add_zero]
    rw [normDay_toOrdinal _ _ (by simp; omega)]
    simp only [toOrdinal]
    rw [monthOffset_succ y m hm10]
    omega

theorem toOrdinal_setFullYear_succ (dt : JSDate) (hm : dt.month ≤ 11) :
    toOrdinal dt + 364 ≤ toOrdinal (setFullYear dt (dt.year + 1)) := by
  unfold setFullYear
  rw [normDay_toOrdinal _ _ (by simpa using hm)]
  have b1 := monthOffset_bounds dt.year dt.month
  have b2 := monthOffset_bounds (dt.year + 1) dt.month
  have hmono : leapsBefore dt.year ≤ leapsBefore (dt.year + 1) := by
    rw [leapsBefore_succ]
    split_ifs <;> omega
  simp only [toOrdinal]
  omega

theorem lastDayArg_succ (y m : ℕ) (hm : m ≤ 11) :
    lastDayArg y (m + 1) = daysInMonth y m := by
  unfold lastDayArg
  by_cases h11 : m = 11
  · subst h11
    norm_num
  · have e1 : (m + 1) / 12 = 0 := by omega
    have e2 : (m + 1) % 12 = m + 1 := by omega
    simp [e1, e2]

/-- C9: for every valid frequency, every valid anchor date, and in-range
optional `dayOfMonth`/`dayOfWeek` arguments, `calculateNextDueDate` returns a
date strictly after the anchor: the scheduler always makes strict forward
progress. -/
theorem C9_strict_progress (frequency : String) (dt : JSDate) (dom dow : Option ℕ)
    (hfreq : frequency = "daily" ∨ frequency = "weekly" ∨
      frequency = "monthly" ∨ frequency = "yearly")
    (hv : ValidDate dt)
    (hdom : ∀ x ∈ dom, 1 ≤ x ∧ x ≤ 31)
    (hdow : ∀ w ∈ dow, w ≤ 6) :
    toOrdinal dt < toOrdinal (calculateNextDueDate frequency dt dom dow) := by
  obtain ⟨hm, hdpos, hdle⟩ := hv
  rcases hfreq with rfl | rfl | rfl | rfl
  · have hcalc : calculateNextDueDate "daily" dt dom dow = setDate dt (dt.day + 1) := rfl
    rw [hcalc]
    unfold setDate
    rw [normDay_toOrdinal _ _ (by simpa using hm)]
    simp only [toOrdinal]
    omega
  · rcases dow with _ | dw
    · have hcalc : calculateNextDueDate "weekly" dt dom none
          = setDate dt (dt.day + 7) := rfl
      rw [hcalc]
      unfold setDate
      rw [normDay_toOrdinal _ _ (by simpa using hm)]
      simp only [toOrdinal]
      omega
    · have hcalc : calculateNextDueDate "weekly" dt dom (some dw)
          = setDate dt (dt.day +
              (if (dw + 7 - getDay dt) % 7 = 0 then 7
               else (dw + 7 - getDay dt) % 7)) := rfl
      have hk : 1 ≤ (if (dw + 7 - getDay dt) % 7 = 0 then 7
          else (dw + 7 - getDay dt) % 7) := by
        split_ifs with h <;> omega
      rw [hcalc]
      unfold setDate
      rw [normDay_toOrdinal _ _ (by simpa using hm)]
      simp only [toOrdinal]
      omega
  · rcases dom with _ | x
    · have hcalc : calculateNextDueDate "monthly" dt none dow
          = setMonth dt (dt.month + 1) := rfl
      rw [hcalc, toOrdinal_setMonth_succ dt hm]
      have := daysInMonth_ge dt.year dt.month
      omega
    · obtain ⟨hx1, hx31⟩ := hdom x (Option.mem_def.mpr rfl)
      have hcalc : calculateNextDueDate "monthly" dt (some x) dow
          = setDate (setMonth dt (dt.month + 1))
              (min x (lastDayArg (setMonth dt (dt.month + 1)).year
                ((setMonth dt (dt.month + 1)).month + 1))) := rfl
      set d1 := setMonth dt (dt.month + 1) with hd1def
      have hm1 : d1.month ≤ 11 := by
        rw [hd1def]
        unfold setMonth
        exact normDay_month_le _ _ (by simp; omega)
      have hL : lastDayArg d1.year (d1.month + 1) = daysInMonth d1.year d1.month :=
        lastDayArg_succ _ _ hm1
      have hdayle : d1.day ≤ dt.day := by
        rw [hd1def]
        unfold setMonth
        exact normDay_day_le _ _
      have hdaypos : 1 ≤ d1.day := by
        rw [hd1def]
        unfold setMonth
        exact normDay_day_pos _ _ (by simpa using hdpos)
      have hord : toOrdinal d1 = toOrdinal dt + daysInMonth dt.year dt.month :=
        toOrdinal_setMonth_succ dt hm
      have hwpos : 1 ≤ min x (daysInMonth d1.year d1.month) :=
        le_min hx1 (le_trans (by norm_num) (daysInMonth_ge d1.year d1.month))
      have hwle : min x (daysInMonth d1.year d1.month) ≤ daysInMonth d1.year d1.month :=
        min_le_right _ _
      rw [hcalc, hL, setDate_eq d1 _ hwle]
      have hkey : toOrdinal d1 + min x (daysInMonth d1.year d1.month)
          ≤ toOrdinal ⟨d1.year, d1.month, min x (daysInMonth d1.year d1.month)⟩
            + d1.day := by
        simp only [toOrdinal]
        omega
      omega
  · rcases dom with _ | x
    · have hcalc : calculateNextDueDate "yearly" dt none dow
          = setFullYear dt (dt.year + 1) := rfl
      have h364 := toOrdinal_setFullYear_succ dt hm
      rw [hcalc]
      omega
    · obtain ⟨hx1, hx31⟩ := hdom x (Option.mem_def.mpr rfl)
      have hcalc : calculateNextDueDate "yearly" dt (some x) dow
          = setDate (setFullYear dt (dt.year + 1))
              (min x (lastDayArg (setFullYear dt (dt.year + 1)).year
                ((setFullYear dt (dt.year + 1)).month + 1))) := rfl
      set d1 := setFullYear dt (dt.year + 1) with hd1def
      have hm1 : d1.month ≤ 11 := by
        rw [hd1def]
        unfold setFullYear
        exact normDay_month_le _ _ (by simpa using hm)
      have hL : lastDayArg d1.year (d1.month + 1) = daysInMonth d1.year d1.month :=
        lastDayArg_succ _ _ hm1
      have hdayle : d1.day ≤ dt.day := by
        rw [hd1def]
        unfold setFullYear
        exact normDay_day_le _ _
      have hdaypos : 1 ≤ d1.day := by
        rw [hd1def]
        unfold setFullYear
        exact normDay_day_pos _ _ (by simpa using hdpos)
      have h364 : toOrdinal dt + 364 ≤ toOrdinal d1 :=
        toOrdinal_setFullYear_succ dt hm
      have hd31 : dt.day ≤ 31 := le_trans hdle (daysInMonth_le _ _)
      have hwpos : 1 ≤ min x (daysInMonth d1.year d1.month) :=
        le_min hx1 (le_trans (by norm_num) (daysInMonth_ge d1.year d1.month))
      have hwle : min x (daysInMonth d1.year d1.month) ≤ daysInMonth d1.year d1.month :=
        min_le_right _ _
      rw [hcalc, hL, setDate_eq d1 _ hwle]
      have hkey : toOrdinal d1 + min x (daysInMonth d1.year d1.month)
          ≤ toOrdinal ⟨d1.year, d1.month, min x (daysInMonth d1.year d1.month)⟩
            + d1.day := by
        simp only [toOrdinal]
        omega
      omega

/-- C9 witness: even at the buggy monthly input (anchor 2024-01-31, day 31)
the result, 2024-03-31, is strictly after the anchor. -/
theorem C9_witness :
    toOrdinal ⟨2024, 0, 31⟩
      < toOrdinal (calculateNextDueDate "monthly" ⟨2024, 0, 31⟩ (some 31) none) :=
  C9_strict_progress "monthly" ⟨2024, 0, 31⟩ (some 31) none
    (Or.inr (Or.inr (Or.inl rfl))) (by decide)
    (by
      intro x hx
      simp [Option.mem_def] at hx
      omega)
    (by
      intro w hw
      simp [Option.mem_def] at hw)

/-! ## C3: numeric semantics of the balance computation -/

/-- C3 counterexample: the controller's balance line evaluated with the JS
binary64 semantics (`parseFloat` conversions plus double `+`/`-`) does not
equal the exact decimal sum for opening 0.10, incoming 0.20, outgoing 0: the
claim that summation is exact decimal fails on the code. -/
theorem C3_counterexample :
    balanceFloat (1 / 10) (2 / 10) 0 ≠ 1 / 10 + 2 / 10 - 0 := by
  rw [balanceFloat, roundF64_point1, roundF64_point2, roundF64_zero,
    jsAdd_point1_point2, jsSub_drift_zero]
  norm_num

/-- C3 (amended): the exact-rational reading of the per-account balance at
this ledger is 0.30, but the code's `parseFloat`-plus-double arithmetic
yields the binary64 value 0.30000000000000004 ≠ 0.30 — summation happens in
binary floating point, with observable rounding drift. -/
theorem C3_float_drift :
    (accountEntry dbC3 5 acctC3).balance = 3 / 10 ∧
    balanceFloat (1 / 10) (2 / 10) 0 = 5404319552844596 / 2 ^ 54 ∧
    (5404319552844596 / 2 ^ 54 : ℚ) ≠ 3 / 10 := by
  refine ⟨?_, ?_, by norm_num⟩
  · simp [accountEntry, checksSum, dbC3, acctC3]
    norm_num
  · rw [balanceFloat, roundF64_point1, roundF64_point2, roundF64_zero,
      jsAdd_point1_point2, jsSub_drift_zero]

end CheckMgmt
